import Mathlib

/-!
# Verification of the go_bank ledger and credit scheduling engine

Shallow embedding of the repository's core money-movement code:

* `internal/models/credit.go` — `CalculateMonthlyPayment`,
  `GeneratePaymentSchedule`, `roundToTwoDecimal`, `ValidateCreditRequest`,
  `ToCredit`;
* `internal/models/payment_schedule.go` — `UpdateScheduleStatus`;
* `internal/repository/postgres/account_repository.go` — `UpdateBalance`;
* the PostgreSQL payment-schedule repository — `GetPendingPayments`;
* `internal/service/transaction_service.go` — `Transfer`;
* the credit service — `ProcessPayments`.

Modelling conventions:

* Monetary values (Go `float64`) are embedded as exact rationals `ℚ`;
  `math.Round` (half away from zero) becomes `goRound`.
* Instants (Go `time.Time`) are unix seconds `ℤ`; `now.Sub(d).Hours()/24`
  truncated by Go's `int(...)` conversion becomes `Nat` floor division of the
  nonnegative difference by 86400.
* The database is a `BankState` record of lists.  Every repository method in
  the source runs on its own `*sql.DB` handle (`r.db`) and therefore commits
  independently: the `BeginTx` handles opened by `Transfer` and
  `ProcessPayments` contain no writes, so their `Rollback`/`Commit` have no
  effect on the data written through the repositories.  The embedding
  reproduces this faithfully: repository calls mutate the state directly and
  the outer transaction is effect-free.
* Infrastructure failures (a repository call erroring for environmental
  reasons) are injected through Boolean failure flags; an injected failure
  makes the corresponding call return an error having changed nothing, which
  matches a rolled-back single-statement transaction.
-/

attribute [local semireducible] Rat.add Rat.mul Rat.inv Rat.sub

deriving instance DecidableEq for Except

namespace GoBank

/-- Status of one payment-schedule installment (`PaymentStatus` in credit.go). -/
inductive PaymentStatus where
  | pending
  | paid
  | overdue
  | cancelled
deriving DecidableEq, Repr

/-- Status of a credit (`CreditStatus` in credit.go). -/
inductive CreditStatus where
  | active
  | closed
  | overdue
  | rejected
deriving DecidableEq, Repr

/-- Supported currencies (`Currency` in account.go). -/
inductive Currency where
  | rub
  | usd
  | eur
deriving DecidableEq, Repr

/-- Transaction type (`TransactionType` in transaction.go). -/
inductive TransactionType where
  | deposit
  | withdrawal
  | transfer
  | payment
  | fee
  | interest
deriving DecidableEq, Repr

/-- Transaction status (`TransactionStatus` in transaction.go). -/
inductive TransactionStatus where
  | pending
  | completed
  | failed
  | cancelled
deriving DecidableEq, Repr

/-- Go `math.Round`: nearest integer, halves away from zero.
(`Rat.floor` is used rather than `Int.floor` so that the definition reduces
in the kernel; the two agree by `Rat.floor_def`.) -/
def goRound (v : ℚ) : ℤ :=
  if 0 ≤ v then (v + 1/2).floor else -((-v + 1/2).floor)

/-- Embeds `roundToTwoDecimal` of credit.go: `math.Round(value*100) / 100`. -/
def roundToTwoDecimal (value : ℚ) : ℚ :=
  (goRound (value * 100) : ℚ) / 100

/-- Embeds `CalculateMonthlyPayment` of credit.go: annuity formula with monthly rate
`annualInterestRate / 12 / 100`, and the degenerate zero-rate branch. -/
def calculateMonthlyPayment (principal annualInterestRate : ℚ)
    (termMonths : ℕ) : ℚ :=
  let monthlyInterestRate := annualInterestRate / 12 / 100
  if monthlyInterestRate = 0 then
    principal / (termMonths : ℚ)
  else
    principal * monthlyInterestRate * (1 + monthlyInterestRate) ^ termMonths /
      ((1 + monthlyInterestRate) ^ termMonths - 1)

/-- Modelled from the spec: the standard fixed-rate annuity amount with
monthly rate `annualRate/12/100`, returning `principal / termMonths` exactly
when the monthly rate is zero (spec §4.3).  Stated from the spec's words for
refinement against `calculateMonthlyPayment`. -/
def annuityAmountSpec (principal annualRatePercent : ℚ) (termMonths : ℕ) : ℚ :=
  let r := annualRatePercent / 12 / 100
  if r = 0 then principal / (termMonths : ℚ)
  else principal * (r * (1 + r) ^ termMonths) / ((1 + r) ^ termMonths - 1)

/-- Embeds `CreditRequest` of credit.go (the fields the validated path reads). -/
structure CreditRequest where
  userID : ℕ
  amount : ℚ
  termMonths : ℕ
  interestRate : ℚ
deriving DecidableEq, Repr

/-- Embeds `ValidateCreditRequest` of credit.go. -/
def validateCreditRequest (c : CreditRequest) : Except String Unit :=
  if c.amount ≤ 0 then .error "amount must be positive"
  else if c.termMonths < 1 ∨ c.termMonths > 360 then
    .error "term must be between 1 and 360 months"
  else if c.interestRate < 0 then .error "interest rate cannot be negative"
  else .ok ()

/-- Embeds `Credit` of credit.go (dates as unix seconds). -/
structure Credit where
  id : ℕ
  userID : ℕ
  accountID : ℕ
  amount : ℚ
  interestRate : ℚ
  termMonths : ℕ
  monthlyPayment : ℚ
  startDate : ℤ
  endDate : ℤ
  status : CreditStatus
deriving DecidableEq, Repr

/-- Embeds `ToCredit` of credit.go.  `now` stands for `time.Now()` and `addMonths`
for `time.AddDate(0, months, 0)` (calendar arithmetic is passed in because it
is not money logic). -/
def toCredit (c : CreditRequest) (accountID : ℕ) (baseInterestRate : ℚ)
    (now : ℤ) (addMonths : ℤ → ℕ → ℤ) : Credit :=
  let interestRate := if c.interestRate = 0 then baseInterestRate + 5 else c.interestRate
  { id := 0
    userID := c.userID
    accountID := accountID
    amount := c.amount
    interestRate := interestRate
    termMonths := c.termMonths
    monthlyPayment := roundToTwoDecimal
      (calculateMonthlyPayment c.amount interestRate c.termMonths)
    startDate := now
    endDate := addMonths now c.termMonths
    status := .active }

/-- Embeds `PaymentSchedule` of credit.go (one installment; dates as unix seconds). -/
structure Sched where
  id : ℕ
  creditID : ℕ
  paymentDate : ℤ
  principalAmount : ℚ
  interestAmount : ℚ
  totalAmount : ℚ
  status : PaymentStatus
  isOverdue : Bool
  penaltyAmount : ℚ
deriving DecidableEq, Repr

/-- Loop body of `GeneratePaymentSchedule`, recursing on the number of
installments still to emit (`k` remaining; the Go loop's `i = TermMonths-1`
test matches `k = 1` here). -/
def genScheduleAux (creditID : ℕ) (monthlyPayment monthlyInterestRate : ℚ)
    (addOneMonth : ℤ → ℤ) : ℕ → ℚ → ℤ → List Sched
  | 0, _, _ => []
  | k + 1, remainingPrincipal, paymentDate =>
    let interestAmount := remainingPrincipal * monthlyInterestRate
    let principal0 : ℚ :=
      if k = 0 then remainingPrincipal else monthlyPayment - interestAmount
    let principalAmount := if principal0 < 0 then 0 else principal0
    { id := 0
      creditID := creditID
      paymentDate := paymentDate
      principalAmount := roundToTwoDecimal principalAmount
      interestAmount := roundToTwoDecimal interestAmount
      totalAmount := roundToTwoDecimal (principalAmount + interestAmount)
      status := .pending
      isOverdue := false
      penaltyAmount := 0 } ::
      genScheduleAux creditID monthlyPayment monthlyInterestRate addOneMonth
        k (remainingPrincipal - principalAmount) (addOneMonth paymentDate)

/-- Embeds `GeneratePaymentSchedule` of credit.go. -/
def generatePaymentSchedule (addOneMonth : ℤ → ℤ) (credit : Credit) : List Sched :=
  genScheduleAux credit.id credit.monthlyPayment (credit.interestRate / 12 / 100)
    addOneMonth credit.termMonths credit.amount credit.startDate

/-- Remaining principal at the start of the final installment of
`genScheduleAux` (the value the last installment absorbs before clamping). -/
def finalRem (monthlyPayment monthlyInterestRate : ℚ) : ℕ → ℚ → ℚ
  | 0, rem => rem
  | 1, rem => rem
  | k + 2, rem =>
    let principal0 := monthlyPayment - rem * monthlyInterestRate
    let principal := if principal0 < 0 then 0 else principal0
    finalRem monthlyPayment monthlyInterestRate (k + 1) (rem - principal)

/-- Truncated whole days between two instants, as Go computes
`int(now.Sub(d).Hours() / 24)` for a nonnegative difference. -/
def daysBetween (now paymentDate : ℤ) : ℕ :=
  (now - paymentDate).toNat / 86400

/-- Embeds `UpdateScheduleStatus` of payment_schedule.go, with `now` passed in for
`time.Now()`:  a pending installment past its due date flips to overdue with
the flag set, and the 10% penalty is written only when more than one whole
day has elapsed. -/
def updateScheduleStatus (now : ℤ) (schedule : Sched) : Sched :=
  if schedule.status = .pending ∧ schedule.paymentDate < now then
    let daysOverdue := daysBetween now schedule.paymentDate
    { schedule with
      isOverdue := true
      status := .overdue
      penaltyAmount :=
        if 1 < daysOverdue then roundToTwoDecimal (schedule.totalAmount * (1/10))
        else schedule.penaltyAmount }
  else schedule

/-- Embeds `Account` of account.go (the fields the money paths read). -/
structure Account where
  id : ℕ
  userID : ℕ
  balance : ℚ
  currency : Currency
  isActive : Bool
deriving DecidableEq, Repr

/-- Embeds `Transaction` of transaction.go (the fields the money paths write). -/
structure Txn where
  transactionType : TransactionType
  sourceAccountID : Option ℕ
  destinationAccountID : Option ℕ
  amount : ℚ
  currency : Currency
  status : TransactionStatus
deriving DecidableEq, Repr

/-- The committed database state: accounts, credits, payment schedules and
the append-only transaction log. -/
structure BankState where
  accounts : List Account
  credits : List Credit
  schedules : List Sched
  transactions : List Txn
deriving DecidableEq, Repr

/-- Error outcomes of the ledger mutation `UpdateBalance`. -/
inductive UpdErr where
  | insufficientFunds
  | infra
deriving DecidableEq, Repr

/-- Row lookup `SELECT ... FROM accounts WHERE id = $1`. -/
def findAccount (st : BankState) (id : ℕ) : Option Account :=
  st.accounts.find? (fun a => a.id == id)

/-- Row lookup `SELECT ... FROM credits WHERE id = $1`. -/
def findCredit (st : BankState) (id : ℕ) : Option Credit :=
  st.credits.find? (fun c => c.id == id)

/-- Row lookup `SELECT ... FROM payment_schedules WHERE id = $1`. -/
def findSched (st : BankState) (id : ℕ) : Option Sched :=
  st.schedules.find? (fun s => s.id == id)

/-- Embeds `UpdateBalance` of account_repository.go: inside its own transaction it
locks the row, reads the current balance, rejects with `insufficient funds`
when `current + amount` is negative, otherwise writes `current + amount` and
commits.  Returns the state after the call together with the outcome; every
error leaves the state exactly as it was (the single-statement transaction
rolled back). -/
def updateBalance (st : BankState) (id : ℕ) (amount : ℚ) :
    BankState × Except UpdErr ℚ :=
  match findAccount st id with
  | none => (st, .error .infra)
  | some a =>
    let newBalance := a.balance + amount
    if newBalance < 0 then (st, .error .insufficientFunds)
    else
      ({ st with
          accounts := st.accounts.map
            (fun b => if b.id == id then { b with balance := newBalance } else b) },
       .ok newBalance)

/-- Embeds `PaymentScheduleRepo.Update`: the SQL statement updates only the
status, overdue-flag and penalty columns of the row with the given id. -/
def setSched (st : BankState) (q : Sched) : BankState :=
  { st with
    schedules := st.schedules.map
      (fun s => if s.id == q.id then
        { s with status := q.status, isOverdue := q.isOverdue,
                 penaltyAmount := q.penaltyAmount }
        else s) }

/-- Embeds `CreditRepo.Update`, restricted to the status change the sweep performs. -/
def setCreditStatus (st : BankState) (id : ℕ) (status : CreditStatus) : BankState :=
  { st with
    credits := st.credits.map
      (fun c => if c.id == id then { c with status := status } else c) }

/-- Embeds `TransactionRepo.Create`: append one transaction row. -/
def addTxn (st : BankState) (t : Txn) : BankState :=
  { st with transactions := st.transactions ++ [t] }

/-- Embeds `TransferRequest` of transaction.go. -/
structure TransferRequest where
  sourceAccountID : ℕ
  destinationAccountID : ℕ
  amount : ℚ
deriving DecidableEq, Repr

/-- Embeds `ValidateTransferRequest` of transaction.go. -/
def validateTransferRequest (t : TransferRequest) : Except String Unit :=
  if t.sourceAccountID = t.destinationAccountID then
    .error "source and destination accounts cannot be the same"
  else if t.amount ≤ 0 then .error "amount must be positive"
  else .ok ()

/-- Which steps of one `Transfer` call fail for infrastructure reasons. -/
structure TransferFails where
  beginTx : Bool
  debitInfra : Bool
  creditInfra : Bool
  insertTxn : Bool
  commit : Bool
deriving DecidableEq, Repr

/-- Errors a `Transfer` call can return. -/
inductive TransferErr where
  | invalidRequest
  | sourceNotFound
  | accessDenied
  | sourceInactive
  | insufficientFunds
  | destNotFound
  | destInactive
  | currencyMismatch
  | beginTxFailed
  | debitFailed
  | creditFailed
  | insertFailed
  | commitFailed
deriving DecidableEq, Repr

/-- Embeds `Transfer` of transaction_service.go.  The pre-checks run first; then the
service opens an outer transaction, but the debit, the credit and the
transaction insert all go through repository methods bound to `r.db`, so each
commits on its own and the outer `Rollback` on error undoes none of them. -/
def transfer (st : BankState) (req : TransferRequest) (userID : ℕ)
    (f : TransferFails) : BankState × Except TransferErr ℕ :=
  match validateTransferRequest req with
  | .error _ => (st, .error .invalidRequest)
  | .ok _ =>
    match findAccount st req.sourceAccountID with
    | none => (st, .error .sourceNotFound)
    | some sourceAccount =>
      if sourceAccount.userID ≠ userID then (st, .error .accessDenied)
      else if ¬ sourceAccount.isActive then (st, .error .sourceInactive)
      else if sourceAccount.balance < req.amount then (st, .error .insufficientFunds)
      else
        match findAccount st req.destinationAccountID with
        | none => (st, .error .destNotFound)
        | some destAccount =>
          if ¬ destAccount.isActive then (st, .error .destInactive)
          else if sourceAccount.currency ≠ destAccount.currency then
            (st, .error .currencyMismatch)
          else if f.beginTx then (st, .error .beginTxFailed)
          else if f.debitInfra then (st, .error .debitFailed)
          else
            match updateBalance st req.sourceAccountID (-req.amount) with
            | (st1, .error _) => (st1, .error .debitFailed)
            | (st1, .ok _) =>
              if f.creditInfra then (st1, .error .creditFailed)
              else
                match updateBalance st1 req.destinationAccountID req.amount with
                | (st2, .error _) => (st2, .error .creditFailed)
                | (st2, .ok _) =>
                  if f.insertTxn then (st2, .error .insertFailed)
                  else
                    let st3 := addTxn st2
                      { transactionType := .transfer
                        sourceAccountID := some req.sourceAccountID
                        destinationAccountID := some req.destinationAccountID
                        amount := req.amount
                        currency := sourceAccount.currency
                        status := .completed }
                    if f.commit then (st3, .error .commitFailed)
                    else (st3, .ok st3.transactions.length)

/-- Embeds `GetPendingPayments` of the payment-schedule repository:
`WHERE status = 'PENDING' AND payment_date <= $2`.  (The SQL additionally
orders by payment date; the claims here do not depend on the order, and the
filter preserves the stored order.) -/
def getPendingPayments (schedules : List Sched) (date : ℤ) : List Sched :=
  schedules.filter (fun s => decide (s.status = .pending ∧ s.paymentDate ≤ date))

/-- Which steps of one installment's collection fail for infrastructure
reasons. -/
structure StepFails where
  getCredit : Bool
  getAccount : Bool
  beginTx : Bool
  balInfra : Bool
  insertTxn : Bool
  schedUpdate : Bool
  creditUpdate : Bool
  commit : Bool
deriving DecidableEq, Repr

/-- The all-clear failure oracle. -/
def noFails : StepFails :=
  { getCredit := false, getAccount := false, beginTx := false, balInfra := false,
    insertTxn := false, schedUpdate := false, creditUpdate := false,
    commit := false }

/-- Amount the sweep tries to collect for one installment: the stored total
plus the penalty when the (freshly re-evaluated) installment is overdue. -/
def totalDue (now : ℤ) (payment : Sched) : ℚ :=
  let p1 := updateScheduleStatus now payment
  p1.totalAmount + (if p1.isOverdue then p1.penaltyAmount else 0)

/-- Loop body of `ProcessPayments` in the credit service, for one fetched
installment.  Every error path is a `continue`: the function always returns a
state and never aborts the surrounding sweep.  As in the source, the
repository writes commit individually; the per-installment `BeginTx` handle
holds no writes. -/
def processOne (now : ℤ) (f : StepFails) (st : BankState) (payment : Sched) :
    BankState :=
  match findCredit st payment.creditID with
  | none => st
  | some credit =>
    if f.getCredit then st
    else
      match findAccount st credit.accountID with
      | none => st
      | some account =>
        if f.getAccount then st
        else
          let p1 := updateScheduleStatus now payment
          let totalAmount := totalDue now payment
          if f.beginTx then st
          else if f.balInfra then st
          else
            match updateBalance st account.id (-totalAmount) with
            | (st1, .error .insufficientFunds) =>
              let p2 := { p1 with
                status := .overdue
                isOverdue := true
                penaltyAmount :=
                  if p1.penaltyAmount = 0 then p1.totalAmount * (1/10)
                  else p1.penaltyAmount }
              let st2 := if f.schedUpdate then st1 else setSched st1 p2
              if f.creditUpdate then st2 else setCreditStatus st2 credit.id .overdue
            | (st1, .error .infra) => st1
            | (st1, .ok _) =>
              if f.insertTxn then st1
              else
                let st2 := addTxn st1
                  { transactionType := .payment
                    sourceAccountID := some account.id
                    destinationAccountID := none
                    amount := totalAmount
                    currency := .rub
                    status := .completed }
                if f.schedUpdate then st2
                else setSched st2 { p1 with status := .paid }

/-- Embeds `ProcessPayments` of the credit service: fetch the pending installments
due on or before `now`, then process each in turn. -/
def processPayments (now : ℤ) (f : ℕ → StepFails) (st : BankState) : BankState :=
  (getPendingPayments st.schedules now).foldl
    (fun s p => processOne now (f p.id) s p) st

/-! ## Concrete scenarios used by the closed theorems -/

/-- Two active RUB accounts: account 1 (user 7, balance 100) and account 2
(user 9, balance 50). -/
def transferState : BankState :=
  { accounts := [⟨1, 7, 100, .rub, true⟩, ⟨2, 9, 50, .rub, true⟩]
    credits := [], schedules := [], transactions := [] }

/-- A transfer run in which only the destination-credit `UpdateBalance` call
fails (for infrastructure reasons), every other step succeeding. -/
def creditStepFails : TransferFails :=
  { beginTx := false, debitInfra := false, creditInfra := true,
    insertTxn := false, commit := false }

/-- The credit request of the C2 counterexample: 1000.77 at 3% for 5 months. -/
def cexRequest : CreditRequest :=
  { userID := 7, amount := 100077/100, termMonths := 5, interestRate := 3 }

/-- The credit the issuance path builds from `cexRequest` (dates are
irrelevant to the schedule sums, so the calendar arguments are trivial). -/
def cexCredit : Credit :=
  toCredit cexRequest 1 7 0 (fun d _ => d)

/-- An installment of 100 (50 principal + 50 interest) due at time 0 on
credit 10, which draws on account 1. -/
def sweepInstallment : Sched := ⟨5, 10, 0, 50, 50, 100, .pending, false, 0⟩

/-- Account 1 holds 500 — enough to cover `sweepInstallment`. -/
def fundedState : BankState :=
  { accounts := [⟨1, 8, 500, .rub, true⟩]
    credits := [⟨10, 8, 1, 1000, 12, 12, 100, 0, 0, .active⟩]
    schedules := [sweepInstallment]
    transactions := [] }

/-- Account 1 holds 0 — not enough to cover `sweepInstallment`. -/
def brokeState : BankState :=
  { accounts := [⟨1, 8, 0, .rub, true⟩]
    credits := [⟨10, 8, 1, 1000, 12, 12, 100, 0, 0, .active⟩]
    schedules := [sweepInstallment]
    transactions := [] }

/-- The state after `sweepInstallment` has been collected: it is `PAID`. -/
def paidState : BankState :=
  { accounts := [⟨1, 8, 400, .rub, true⟩]
    credits := [⟨10, 8, 1, 1000, 12, 12, 100, 0, 0, .active⟩]
    schedules := [⟨5, 10, 0, 50, 50, 100, .paid, true, 0⟩]
    transactions := [⟨.payment, some 1, none, 100, .rub, .completed⟩] }

/-- A 12-month zero-interest credit of 1200 paying 100 a month (used to
witness the schedule-sum bound). -/
def levelCredit : Credit := ⟨0, 1, 1, 1200, 0, 12, 100, 0, 0, .active⟩

/-- A second installment of 100 (40 principal + 60 interest) due at time 0
on the same credit 10. -/
def sweepInstallment2 : Sched := ⟨6, 10, 0, 40, 60, 100, .pending, false, 0⟩

/-- Account 1 holds 500 and credit 10 has two due installments. -/
def twoInstState : BankState :=
  { accounts := [⟨1, 8, 500, .rub, true⟩]
    credits := [⟨10, 8, 1, 1000, 12, 12, 100, 0, 0, .active⟩]
    schedules := [sweepInstallment, sweepInstallment2]
    transactions := [] }

/-! ## Helper lemmas -/

/-- The computable `Rat.floor` agrees with the `FloorRing` floor. -/
theorem ratFloor_eq_intFloor (q : ℚ) : (q.floor : ℤ) = ⌊q⌋ := by
  rw [Rat.floor_def', Rat.floor_def]

/-- Rounding a rational to the nearest integer at `+1/2` moves it by at most
one half. -/
theorem abs_floor_add_half_sub_le (w : ℚ) : |((⌊w + 1/2⌋ : ℤ) : ℚ) - w| ≤ 1/2 := by
  have h1 := Int.floor_le (w + 1/2)
  have h2 := Int.lt_floor_add_one (w + 1/2)
  rw [abs_le]
  constructor <;> linarith

/-- Go's `math.Round` moves a value by at most one half. -/
theorem abs_goRound_sub_le (v : ℚ) : |((goRound v : ℤ) : ℚ) - v| ≤ 1/2 := by
  unfold goRound
  split_ifs with h
  · rw [ratFloor_eq_intFloor]
    exact abs_floor_add_half_sub_le v
  · have hcast : ((( -((-v + 1/2).floor) : ℤ) : ℚ)) - v =
        -((((-v + 1/2).floor : ℤ) : ℚ) - (-v)) := by push_cast; ring
    rw [hcast, abs_neg, ratFloor_eq_intFloor]
    exact abs_floor_add_half_sub_le (-v)

/-- Rounding with `roundToTwoDecimal` moves a value by at most half a cent. -/
theorem abs_roundToTwoDecimal_sub_le (x : ℚ) :
    |roundToTwoDecimal x - x| ≤ 1/200 := by
  unfold roundToTwoDecimal
  have h := abs_goRound_sub_le (x * 100)
  have heq : ((goRound (x * 100) : ℤ) : ℚ) / 100 - x =
      (((goRound (x * 100) : ℤ) : ℚ) - x * 100) / 100 := by ring
  rw [heq, abs_div]
  have : |(100 : ℚ)| = 100 := by norm_num
  rw [this]
  linarith

/-- Replacing the (unique first) element found by an id-predicate, with an
update that preserves the id, updates what `find?` returns. -/
theorem find?_map_update {α : Type} (idf : α → ℕ) (u : α → α) (i : ℕ)
    (hu : ∀ s, idf (u s) = idf s) :
    ∀ (l : List α) (x : α), l.find? (fun s => idf s == i) = some x →
      (l.map (fun s => if idf s == i then u s else s)).find?
        (fun s => idf s == i) = some (u x)
  | [], x, h => by simp at h
  | a :: l, x, h => by
    rw [List.find?_cons] at h
    by_cases hcond : (idf a == i) = true
    · rw [hcond] at h
      cases h
      simp only [List.map_cons, List.find?_cons]
      rw [if_pos hcond, hu, hcond]
    · rw [Bool.not_eq_true] at hcond
      rw [hcond] at h
      simp only [List.map_cons, List.find?_cons, hcond, Bool.false_eq_true,
        if_false]
      exact find?_map_update idf u i hu l x h

/-- One-step unfolding of `genScheduleAux` (stated explicitly so a single
rewrite unfolds exactly one loop iteration). -/
theorem genScheduleAux_succ (cid : ℕ) (M r : ℚ) (addM : ℤ → ℤ) (k : ℕ)
    (rem : ℚ) (date : ℤ) :
    genScheduleAux cid M r addM (k + 1) rem date =
      { id := 0
        creditID := cid
        paymentDate := date
        principalAmount := roundToTwoDecimal
          (if (if k = 0 then rem else M - rem * r) < 0 then 0
            else if k = 0 then rem else M - rem * r)
        interestAmount := roundToTwoDecimal (rem * r)
        totalAmount := roundToTwoDecimal
          ((if (if k = 0 then rem else M - rem * r) < 0 then 0
            else if k = 0 then rem else M - rem * r) + rem * r)
        status := .pending
        isOverdue := false
        penaltyAmount := 0 } ::
      genScheduleAux cid M r addM k
        (rem - (if (if k = 0 then rem else M - rem * r) < 0 then 0
          else if k = 0 then rem else M - rem * r))
        (addM date) := rfl

/-- The generated schedule's stored (two-decimal-rounded) principal
components sum to the starting remaining principal, up to half a cent per
installment, plus the clamping defect of the final installment (`max 0` of
the negated final remaining balance). -/
theorem genScheduleAux_principal_sum (cid : ℕ) (M r : ℚ) (addM : ℤ → ℤ) :
    ∀ (k : ℕ) (rem : ℚ) (date : ℤ),
      |(((genScheduleAux cid M r addM (k + 1) rem date).map
          (fun s => s.principalAmount)).sum) -
        (rem + max 0 (-(finalRem M r (k + 1) rem)))| ≤
        ((k + 1 : ℕ) : ℚ) * (1/200)
  | 0, rem, date => by
    simp only [genScheduleAux, if_pos rfl, List.map_cons, List.map_nil,
      List.sum_cons, List.sum_nil, add_zero, finalRem]
    have hval : rem + max 0 (-rem) = (if rem < 0 then (0 : ℚ) else rem) := by
      by_cases h : rem < 0
      · rw [if_pos h, max_eq_right (by linarith), add_neg_cancel]
      · rw [if_neg h, max_eq_left (by linarith), add_zero]
    rw [hval]
    have := abs_roundToTwoDecimal_sub_le (if rem < 0 then (0 : ℚ) else rem)
    calc |roundToTwoDecimal (if rem < 0 then (0 : ℚ) else rem) -
            (if rem < 0 then (0 : ℚ) else rem)| ≤ 1/200 := this
      _ ≤ ((0 + 1 : ℕ) : ℚ) * (1/200) := by norm_num
  | k + 1, rem, date => by
    have hne : k + 1 ≠ 0 := Nat.succ_ne_zero k
    rw [genScheduleAux_succ]
    simp only [if_neg hne, List.map_cons, List.sum_cons]
    have hfr : finalRem M r (k + 1 + 1) rem =
        finalRem M r (k + 1)
          (rem - (if M - rem * r < 0 then 0 else M - rem * r)) := by
      simp only [finalRem]
    rw [hfr]
    have ih := genScheduleAux_principal_sum cid M r addM k
      (rem - (if M - rem * r < 0 then 0 else M - rem * r)) (addM date)
    have hhead := abs_roundToTwoDecimal_sub_le
      (if M - rem * r < 0 then (0 : ℚ) else M - rem * r)
    set p := (if M - rem * r < 0 then (0 : ℚ) else M - rem * r) with hp
    set t := ((genScheduleAux cid M r addM (k + 1) (rem - p) (addM date)).map
      (fun s => s.principalAmount)).sum with ht
    set D := max 0 (-(finalRem M r (k + 1) (rem - p))) with hD
    have hsplit : roundToTwoDecimal p + t - (rem + D) =
        (roundToTwoDecimal p - p) + (t - ((rem - p) + D)) := by ring
    rw [hsplit]
    have htri := abs_add (roundToTwoDecimal p - p) (t - ((rem - p) + D))
    have hcast : ((k + 1 + 1 : ℕ) : ℚ) * (1/200) =
        1/200 + ((k + 1 : ℕ) : ℚ) * (1/200) := by push_cast; ring
    rw [hcast]
    calc |(roundToTwoDecimal p - p) + (t - ((rem - p) + D))|
        ≤ |roundToTwoDecimal p - p| + |t - ((rem - p) + D)| := htri
      _ ≤ 1/200 + ((k + 1 : ℕ) : ℚ) * (1/200) := by
          exact add_le_add hhead ih

/-! ## Claim theorems -/

/-- C2 (amended): the sum of the stored principal components of a generated
schedule equals the credit's principal plus the final-installment clamping
defect (zero unless the rounded monthly payment over-amortizes), to within
half a cent per installment — not within one overall cent as claimed. -/
theorem c2_schedule_principal_sum (addM : ℤ → ℤ) (credit : Credit)
    (hterm : 1 ≤ credit.termMonths) :
    |(((generatePaymentSchedule addM credit).map
        (fun s => s.principalAmount)).sum) -
      (credit.amount + max 0 (-(finalRem credit.monthlyPayment
        (credit.interestRate / 12 / 100) credit.termMonths credit.amount)))| ≤
      (credit.termMonths : ℚ) * (1/200) := by
  obtain ⟨k, hk⟩ : ∃ k, credit.termMonths = k + 1 :=
    ⟨credit.termMonths - 1, by omega⟩
  unfold generatePaymentSchedule
  rw [hk]
  exact genScheduleAux_principal_sum credit.id credit.monthlyPayment
    (credit.interestRate / 12 / 100) addM k credit.amount credit.startDate

/-- Closed witness for C2 (amended): the schedule of `levelCredit` (1200 at
0% over 12 months, payment 100) sums to the principal within the bound. -/
theorem c2_schedule_principal_sum_witness :
    |(((generatePaymentSchedule (fun d => d) levelCredit).map
        (fun s => s.principalAmount)).sum) -
      (levelCredit.amount + max 0 (-(finalRem levelCredit.monthlyPayment
        (levelCredit.interestRate / 12 / 100) levelCredit.termMonths
        levelCredit.amount)))| ≤
      (levelCredit.termMonths : ℚ) * (1/200) :=
  c2_schedule_principal_sum (fun d => d) levelCredit (by decide)

/-- C2 counterexample: the issuance-path credit of 1000.77 at 3% over 5
months (a valid request) yields stored principal components summing to
1000.79 — two cents above the principal, violating the claimed one-cent
tolerance. -/
theorem c2_one_cent_cex :
    validateCreditRequest cexRequest = .ok () ∧
    cexCredit.amount = 100077/100 ∧
    (((generatePaymentSchedule (fun d => d) cexCredit).map
        (fun s => s.principalAmount)).sum) = 100079/100 ∧
    ¬ |(((generatePaymentSchedule (fun d => d) cexCredit).map
        (fun s => s.principalAmount)).sum) - cexCredit.amount| ≤ 1/100 := by
  refine ⟨by decide, by decide, by decide, by decide⟩

/-- C3: for an account holding balance `b`, the ledger mutation
`UpdateBalance` fails with `InsufficientFunds` if and only if `b + a < 0`;
on that failure the stored state is unchanged, and on success the stored
balance becomes exactly `b + a`. -/
theorem c3_updateBalance_correct (st : BankState) (i : ℕ) (amt : ℚ)
    (a : Account) (ha : findAccount st i = some a) :
    ((updateBalance st i amt).2 = .error .insufficientFunds ↔
      a.balance + amt < 0) ∧
    ((updateBalance st i amt).2 = .error .insufficientFunds →
      (updateBalance st i amt).1 = st) ∧
    (¬ a.balance + amt < 0 →
      findAccount (updateBalance st i amt).1 i =
        some { a with balance := a.balance + amt } ∧
      (updateBalance st i amt).2 = .ok (a.balance + amt)) := by
  by_cases hlt : a.balance + amt < 0
  · refine ⟨?_, ?_, ?_⟩
    · simp [updateBalance, ha, hlt]
    · simp [updateBalance, ha, hlt]
    · intro h
      exact absurd hlt h
  · refine ⟨?_, ?_, ?_⟩
    · simp [updateBalance, ha, hlt]
    · simp [updateBalance, ha, hlt]
    · intro h
      constructor
      · have ha' : List.find? (fun b : Account => b.id == i) st.accounts = some a := by
          simpa [findAccount] using ha
        have hfind := find?_map_update (fun b : Account => b.id)
          (fun b => { b with balance := a.balance + amt }) i (fun _ => rfl)
          st.accounts a ha'
        simp only [updateBalance, findAccount, ha', if_neg hlt]
        simpa using hfind
      · simp [updateBalance, ha, hlt]

/-- Closed witness for C3: debiting 100 from account 1 of `fundedState`
(balance 500) succeeds and stores balance 400. -/
theorem c3_updateBalance_correct_witness :
    findAccount (updateBalance fundedState 1 (-100)).1 1 =
      some ⟨1, 8, 500 + (-100), .rub, true⟩ ∧
    (updateBalance fundedState 1 (-100)).2 = .ok (500 + (-100)) :=
  (c3_updateBalance_correct fundedState 1 (-100) ⟨1, 8, 500, .rub, true⟩
    (by decide)).2.2 (by norm_num)

/-- C4 counterexample: an installment due at time 0, evaluated 25 hours
later (`daysLate = 1`), already has `IsOverdue = true` — the claim says
same-day or next-day lateness shows `IsOverdue = false`.  (Penalty is indeed
still 0 and the status is flipped.) -/
theorem c4_grace_flag_cex :
    daysBetween 90000 0 = 1 ∧
    (updateScheduleStatus 90000 ⟨1, 1, 0, 50, 50, 100, .pending, false, 0⟩).isOverdue
      = true ∧
    (updateScheduleStatus 90000 ⟨1, 1, 0, 50, 50, 100, .pending, false, 0⟩).status
      = .overdue ∧
    (updateScheduleStatus 90000 ⟨1, 1, 0, 50, 50, 100, .pending, false, 0⟩).penaltyAmount
      = 0 := by
  decide

/-- C4 (amended): once a pending installment's due date has passed, the
status flips to `OVERDUE` and the `IsOverdue` flag is set; only the
10%-of-total penalty is gated on more than one day of lateness
(`daysLate ≤ 1` leaves the penalty field untouched, hence 0 for a freshly
generated installment). -/
theorem c4_overdue_transition (now : ℤ) (p : Sched)
    (hpend : p.status = .pending) (hdue : p.paymentDate < now) :
    (updateScheduleStatus now p).status = .overdue ∧
    (updateScheduleStatus now p).isOverdue = true ∧
    (daysBetween now p.paymentDate ≤ 1 →
      (updateScheduleStatus now p).penaltyAmount = p.penaltyAmount) ∧
    (1 < daysBetween now p.paymentDate →
      (updateScheduleStatus now p).penaltyAmount =
        roundToTwoDecimal (p.totalAmount * (1/10))) := by
  refine ⟨?_, ?_, ?_, ?_⟩
  · simp [updateScheduleStatus, hpend, hdue]
  · simp [updateScheduleStatus, hpend, hdue]
  · intro hle
    have hnot : ¬ 1 < daysBetween now p.paymentDate := by omega
    simp [updateScheduleStatus, hpend, hdue, hnot]
  · intro hlt
    simp [updateScheduleStatus, hpend, hdue, hlt]

/-- Closed witness for C4 (amended): the same boundary installment, via the
theorem. -/
theorem c4_overdue_transition_witness :
    (updateScheduleStatus 90000 ⟨2, 1, 0, 50, 50, 100, .pending, false, 0⟩).status
      = .overdue ∧
    (updateScheduleStatus 90000 ⟨2, 1, 0, 50, 50, 100, .pending, false, 0⟩).isOverdue
      = true ∧
    (updateScheduleStatus 90000 ⟨2, 1, 0, 50, 50, 100, .pending, false, 0⟩).penaltyAmount
      = 0 := by
  have h := c4_overdue_transition 90000 ⟨2, 1, 0, 50, 50, 100, .pending, false, 0⟩
    rfl (by decide)
  exact ⟨h.1, h.2.1, by rw [h.2.2.1 (by decide)]⟩

/-- C7: `CalculateMonthlyPayment` computes the standard fixed-rate annuity
amount (refinement against the spec-worded `annuityAmountSpec`), returns
exactly `principal / termMonths` when the monthly rate is zero, and yields
8884.88 (after two-decimal rounding) for principal 100000, rate 12%, term
12. -/
theorem c7_monthlyPayment_annuity (principal rate : ℚ) (n : ℕ)
    (hp : 0 < principal) (hr : 0 ≤ rate) (hn : 0 < n) :
    calculateMonthlyPayment principal rate n = annuityAmountSpec principal rate n ∧
    (rate = 0 → calculateMonthlyPayment principal rate n = principal / (n : ℚ)) ∧
    roundToTwoDecimal (calculateMonthlyPayment 100000 12 12) = 888488/100 := by
  refine ⟨?_, ?_, by decide⟩
  · simp only [calculateMonthlyPayment, annuityAmountSpec]
    split_ifs with h
    · rfl
    · ring
  · intro h0
    simp [calculateMonthlyPayment, h0]

/-- Closed witness for C7 at principal 100000, rate 12, term 12. -/
theorem c7_monthlyPayment_annuity_witness :
    calculateMonthlyPayment 100000 12 12 = annuityAmountSpec 100000 12 12 ∧
    roundToTwoDecimal (calculateMonthlyPayment 100000 12 12) = 888488/100 := by
  have h := c7_monthlyPayment_annuity 100000 12 12 (by norm_num) (by norm_num)
    (by norm_num)
  exact ⟨h.1, h.2.2⟩

/-- C10: a validated credit request with `InterestRate = 0` (which the
validation accepts, rejecting only negative rates) gets
`baseInterestRate + 5` substituted by `ToCredit`; with a nonnegative base
rate (the CBR percentage or the 7.0 fallback) the issued credit's rate is
never zero. -/
theorem c10_zero_rate_substituted (req : CreditRequest) (accountID : ℕ)
    (base : ℚ) (now : ℤ) (addMonths : ℤ → ℕ → ℤ)
    (hv : validateCreditRequest req = .ok ()) (hbase : 0 ≤ base) :
    (req.interestRate = 0 →
      (toCredit req accountID base now addMonths).interestRate = base + 5) ∧
    (toCredit req accountID base now addMonths).interestRate ≠ 0 := by
  constructor
  · intro h0
    simp [toCredit, h0]
  · by_cases h0 : req.interestRate = 0
    · simp only [toCredit, if_pos h0]
      intro hzero
      have : base = -5 := by linarith
      linarith
    · simp only [toCredit, if_neg h0]
      exact h0

/-- Closed witness for C10: a zero-rate request over base rate 7 produces a
12% credit. -/
theorem c10_zero_rate_substituted_witness :
    (toCredit ⟨1, 1000, 12, 0⟩ 3 7 0 (fun d _ => d)).interestRate = 7 + 5 ∧
    (toCredit ⟨1, 1000, 12, 0⟩ 3 7 0 (fun d _ => d)).interestRate ≠ 0 := by
  have h := c10_zero_rate_substituted ⟨1, 1000, 12, 0⟩ 3 7 0 (fun d _ => d)
    (by decide) (by norm_num)
  exact ⟨h.1 rfl, h.2⟩

/-- C1 (evaluation at the failing input): in `transferState` the source
account 1 starts at balance 100; a transfer of 30 to account 2 whose
destination-credit call fails returns an error, yet the source balance is 70
afterwards.  The debit committed inside `UpdateBalance`'s own transaction
(the repository runs on `r.db`, not on the service's outer `tx`), so the
outer rollback undoes nothing; no transaction record is written. -/
theorem c1_debit_persists_after_credit_failure :
    findAccount transferState 1 = some ⟨1, 7, 100, .rub, true⟩ ∧
    (transfer transferState ⟨1, 2, 30⟩ 7 creditStepFails).2 =
      .error .creditFailed ∧
    findAccount (transfer transferState ⟨1, 2, 30⟩ 7 creditStepFails).1 1 =
      some ⟨1, 7, 70, .rub, true⟩ ∧
    (transfer transferState ⟨1, 2, 30⟩ 7 creditStepFails).1.transactions
      = [] := by
  decide

/-- C8 (evaluation at the failing input): collecting `sweepInstallment`
(total 100) from `fundedState` (balance 500) with only the
transaction-record insert failing leaves the balance at 400 while the
installment is still `PENDING` and no transaction exists — a partial write
that the per-installment `tx.Rollback()` cannot undo, because the debit ran
on `r.db`.  Processing still continues: with two due installments and the
first one's insert failing, the second is collected and marked `PAID`. -/
theorem c8_partial_write_on_insert_failure :
    (processOne 10 { noFails with insertTxn := true } fundedState
      sweepInstallment).accounts = [⟨1, 8, 400, .rub, true⟩] ∧
    (processOne 10 { noFails with insertTxn := true } fundedState
      sweepInstallment).schedules = [sweepInstallment] ∧
    (processOne 10 { noFails with insertTxn := true } fundedState
      sweepInstallment).transactions = [] ∧
    (processPayments 10
      (fun i => if i = 5 then { noFails with insertTxn := true } else noFails)
      twoInstState).schedules =
      [sweepInstallment, ⟨6, 10, 0, 40, 60, 100, .paid, true, 0⟩] := by
  decide

/-- C6: the pending-payments fetch returns only `PENDING` installments, and
a state in which every installment is `PAID` is a fixed point of the sweep —
re-running it is a no-op by construction. -/
theorem c6_sweep_idempotent_on_paid (now : ℤ) (f : ℕ → StepFails)
    (st : BankState) :
    (∀ q ∈ getPendingPayments st.schedules now, q.status = .pending) ∧
    ((∀ q ∈ st.schedules, q.status = .paid) →
      processPayments now f st = st) := by
  constructor
  · intro q hq
    simp only [getPendingPayments, List.mem_filter, decide_eq_true_eq] at hq
    exact hq.2.1
  · intro hall
    have hnil : getPendingPayments st.schedules now = [] := by
      apply List.filter_eq_nil_iff.mpr
      intro q hq
      simp only [decide_eq_true_eq, not_and]
      intro hpend
      rw [hall q hq] at hpend
      cases hpend
    simp [processPayments, hnil]

/-- Closed witness for C6: `paidState` (its one installment is `PAID`) is
unchanged by a sweep. -/
theorem c6_sweep_idempotent_on_paid_witness :
    processPayments 10 (fun _ => noFails) paidState = paidState :=
  (c6_sweep_idempotent_on_paid 10 (fun _ => noFails) paidState).2 (by decide)

/-- C9 counterexample: in `brokeState` (balance 0) the due installment is
fetched and fails for insufficient funds, becoming `OVERDUE` with the
penalty applied — after which the pending-payments fetch (which filters on
`status = PENDING` only) returns nothing, so the installment is never
re-attempted by a later sweep, contrary to the claim. -/
theorem c9_overdue_never_refetched_cex :
    getPendingPayments brokeState.schedules 10 = [sweepInstallment] ∧
    findSched (processPayments 10 (fun _ => noFails) brokeState) 5 =
      some ⟨5, 10, 0, 50, 50, 100, .overdue, true, 10⟩ ∧
    getPendingPayments
      (processPayments 10 (fun _ => noFails) brokeState).schedules 10
      = [] := by
  decide

/-- C9 (amended): an installment skipped because its transaction open fails
is left completely untouched (it remains `PENDING`), and a pending
installment due on or before the sweep date is selected by the fetch — so
only transaction-open skips are re-attempted; insufficient-funds failures
become `OVERDUE` and leave the `PENDING`-only fetch forever. -/
theorem c9_pending_skip_reattempted (now : ℤ) (f : StepFails) (st : BankState)
    (p : Sched) (hf : f.beginTx = true) :
    processOne now f st p = st ∧
    (p.status = .pending → p.paymentDate ≤ now → p ∈ st.schedules →
      p ∈ getPendingPayments st.schedules now) := by
  constructor
  · unfold processOne
    cases hc : findCredit st p.creditID with
    | none => rfl
    | some credit =>
      cases hg : f.getCredit
      · cases ha : findAccount st credit.accountID with
        | none => simp [ha]
        | some account =>
          cases hga : f.getAccount
          · simp [ha, hga, hf]
          · simp [ha, hga]
      · simp [hg]
  · intro h1 h2 h3
    simp only [getPendingPayments, List.mem_filter, decide_eq_true_eq]
    exact ⟨h3, h1, h2⟩

/-- Applying `updateScheduleStatus` never changes the installment's id. -/
theorem updateScheduleStatus_id (now : ℤ) (p : Sched) :
    (updateScheduleStatus now p).id = p.id := by
  unfold updateScheduleStatus
  split <;> rfl

/-- C5: collecting a due installment from an account whose balance is below
the total due marks the stored installment `OVERDUE` with the flag set and
the 10% penalty applied exactly once (kept unchanged when already nonzero),
escalates the parent credit to `OVERDUE`, and leaves every account balance
unchanged. -/
theorem c5_insufficient_funds_marks_overdue (now : ℤ) (st : BankState)
    (p : Sched) (credit : Credit) (account : Account)
    (hc : findCredit st p.creditID = some credit)
    (ha : findAccount st credit.accountID = some account)
    (hp : findSched st p.id = some p)
    (hb : account.balance < totalDue now p) :
    findSched (processOne now noFails st p) p.id =
      some { p with
        status := .overdue
        isOverdue := true
        penaltyAmount :=
          if (updateScheduleStatus now p).penaltyAmount = 0 then
            (updateScheduleStatus now p).totalAmount * (1/10)
          else (updateScheduleStatus now p).penaltyAmount } ∧
    findCredit (processOne now noFails st p) p.creditID =
      some { credit with status := .overdue } ∧
    (processOne now noFails st p).accounts = st.accounts := by
  have hcid : credit.id = p.creditID := by
    have h1 : List.find? (fun c : Credit => c.id == p.creditID) st.credits
        = some credit := by simpa [findCredit] using hc
    simpa using List.find?_some h1
  have hp' : List.find? (fun s : Sched => s.id == p.id) st.schedules
      = some p := by simpa [findSched] using hp
  have hc' : List.find? (fun c : Credit => c.id == p.creditID) st.credits
      = some credit := by simpa [findCredit] using hc
  have ha2 : findAccount st account.id = some account := by
    have h1 : List.find? (fun a : Account => a.id == credit.accountID)
        st.accounts = some account := by simpa [findAccount] using ha
    have haid : account.id = credit.accountID := by
      simpa using List.find?_some h1
    rw [haid]
    exact ha
  have hneg : account.balance + (-(totalDue now p)) < 0 := by linarith
  simp only [processOne, hc, ha, noFails, Bool.false_eq_true, if_false,
    updateBalance, ha2, if_pos hneg]
  refine ⟨?_, ?_, ?_⟩
  · simp only [setCreditStatus, setSched, findSched, updateScheduleStatus_id]
    exact find?_map_update (fun s : Sched => s.id)
      (fun s => { s with
        status := PaymentStatus.overdue
        isOverdue := true
        penaltyAmount :=
          if (updateScheduleStatus now p).penaltyAmount = 0 then
            (updateScheduleStatus now p).totalAmount * (1/10)
          else (updateScheduleStatus now p).penaltyAmount })
      p.id (fun _ => rfl) st.schedules p hp'
  · simp only [setCreditStatus, setSched, findCredit]
    rw [← hcid] at hc' ⊢
    exact find?_map_update (fun c : Credit => c.id)
      (fun c => { c with status := CreditStatus.overdue })
      credit.id (fun _ => rfl) st.credits credit hc'
  · simp only [setCreditStatus, setSched]

/-- Closed witness for C5: in `brokeState` (balance 0, total due 100) the
collection attempt marks installment 5 overdue with penalty 10, escalates
credit 10, and leaves the balance at 0. -/
theorem c5_insufficient_funds_marks_overdue_witness :
    findSched (processOne 10 noFails brokeState sweepInstallment) 5 =
      some { sweepInstallment with
        status := .overdue
        isOverdue := true
        penaltyAmount :=
          if (updateScheduleStatus 10 sweepInstallment).penaltyAmount = 0 then
            (updateScheduleStatus 10 sweepInstallment).totalAmount * (1/10)
          else (updateScheduleStatus 10 sweepInstallment).penaltyAmount } ∧
    findCredit (processOne 10 noFails brokeState sweepInstallment) 10 =
      some ⟨10, 8, 1, 1000, 12, 12, 100, 0, 0, .overdue⟩ ∧
    (processOne 10 noFails brokeState sweepInstallment).accounts =
      brokeState.accounts := by
  have h := c5_insufficient_funds_marks_overdue 10 brokeState sweepInstallment
    ⟨10, 8, 1, 1000, 12, 12, 100, 0, 0, .active⟩ ⟨1, 8, 0, .rub, true⟩
    (by decide) (by decide) (by decide) (by decide)
  exact ⟨h.1, h.2.1, h.2.2⟩

/-- Closed witness for C9 (amended): a transaction-open failure leaves
`brokeState` untouched and its due installment still fetched. -/
theorem c9_pending_skip_reattempted_witness :
    processOne 10 { noFails with beginTx := true } brokeState sweepInstallment
      = brokeState ∧
    sweepInstallment ∈ getPendingPayments brokeState.schedules 10 := by
  have h := c9_pending_skip_reattempted 10 { noFails with beginTx := true }
    brokeState sweepInstallment rfl
  exact ⟨h.1, h.2 rfl (by decide) (by decide)⟩

end GoBank
